import Mathlib

/-!
Shallow embedding of the classification/aggregation core of
`count_intercom_users.py`: profiles are grouped by email, partitioned into
product lines by external-id prefix, each email is categorized as
only-7S2 / only-7S1 / both / excluded, a highest subscription rank and a
fee-waiver flag are resolved per email, and an aggregate result with
bounded random samples is produced.
-/

/-- A custom-attribute value as it may arrive from the upstream JSON:
either a string or some non-string value (number, list, ...). -/
inductive AttrVal where
  | str (s : String)
  | nonstr
deriving DecidableEq, Repr

/-- One Intercom contact record, restricted to the fields the script reads.
`none` models an absent (or JSON-null) field; `tags` holds the `id` field of
each element of `tags.data`. -/
structure Profile where
  id : Option String
  email : Option String
  external_id : Option String
  last_seen_at : Option Int
  sub : Option String
  lsat_course : Option String
  lsat_purchase_names : Option AttrVal
  tags : List (Option String)
deriving DecidableEq, Repr

/-- Python truthiness for an optional string: `None` and `""` are falsy. -/
def pyStr (o : Option String) : Option String :=
  match o with
  | none => none
  | some s => if s = "" then none else some s

/-- `SUBSCRIPTION_RANKS`: the single module-level dict mapping raw
subscription strings (7S2 values first, then 7S1 values) to ranks. -/
def SUBSCRIPTION_RANKS : List (String × Nat) :=
  [("admin", 5), ("Administrator", 5), ("Staff", 5),
   ("coach", 4), ("live", 3), ("core", 2), ("free", 1),
   ("Coaching", 4), ("Live", 3), ("Yearly + Live", 3),
   ("Core", 2), ("Free Trial", 1)]

/-- `get_subscription_rank(user, is_7s2)`: read `sub` (7S2) or `lsat_course`
(7S1) from the custom attributes; `None`/`""` give 0, otherwise
`SUBSCRIPTION_RANKS.get(sub_val, 0)`. -/
def get_subscription_rank (user : Profile) (is_7s2 : Bool) : Nat :=
  let sub_val := if is_7s2 then user.sub else user.lsat_course
  match sub_val with
  | none => 0
  | some v => if v = "" then 0 else ((SUBSCRIPTION_RANKS.lookup v).getD 0)

/-- `get_highest_subscription(users_7s1, users_7s2)`: running max of the
per-profile ranks over both lists, starting from 0. -/
def get_highest_subscription (users_7s1 users_7s2 : List Profile) : Nat :=
  let m1 := users_7s1.foldl (fun m u => max m (get_subscription_rank u false)) 0
  users_7s2.foldl (fun m u => max m (get_subscription_rank u true)) m1

/-- `rank_to_subscription(rank)`: rank back to a subscription name,
defaulting to `"Unknown"`. -/
def rank_to_subscription (rank : Nat) : String :=
  match rank with
  | 5 => "Admin"
  | 4 => "Coach"
  | 3 => "Live"
  | 2 => "Core"
  | 1 => "Free"
  | 0 => "Unknown"
  | _ => "Unknown"

/-- The hard-coded fee-waiver tag identifier. -/
def FEE_WAIVER_TAG_ID : String := "11173348"

/-- `s.lower()` as a character list (per-character ASCII lowercasing). -/
def lowerChars (s : String) : List Char :=
  s.data.map Char.toLower

/-- `"waiver" in s.lower()` — Python substring test after lowercasing. -/
def containsWaiver (s : String) : Bool :=
  decide ("waiver".toList <:+: lowerChars s)

/-- `is_fee_waiver(user)`: true when some tag id equals
`FEE_WAIVER_TAG_ID`, or `custom_attributes.get("lsat_purchase_names", "")`
is a string containing `"waiver"` case-insensitively. -/
def is_fee_waiver (user : Profile) : Bool :=
  if user.tags.any (fun t => t == some FEE_WAIVER_TAG_ID) then
    true
  else
    match user.lsat_purchase_names.getD (AttrVal.str "") with
    | AttrVal.str s => containsWaiver s
    | AttrVal.nonstr => false

/-- The precise window filter (step 3 of the script):
`user.get("last_seen_at", 0) > min_last_seen_timestamp`. -/
def accurate_users (min_last_seen_timestamp : Int) (all_users_from_api : List Profile) :
    List Profile :=
  all_users_from_api.filter (fun u => decide (min_last_seen_timestamp < u.last_seen_at.getD 0))

/-- Product-line of a profile: external id truthy and starting with `"usr"`
means 7S2, truthy otherwise 7S1, falsy means Other. -/
inductive PLine where
  | s7s1
  | s7s2
  | other
deriving DecidableEq, Repr

/-- `external_id.startswith("usr")` as a character-list test. -/
def startsWithUsr (eid : String) : Bool :=
  decide ("usr".toList <+: eid.toList)

/-- The grouping loop's product-line inference for one profile. -/
def groupOf (user : Profile) : PLine :=
  match pyStr user.external_id with
  | none => PLine.other
  | some eid => if startsWithUsr eid then PLine.s7s2 else PLine.s7s1

/-- The email under which the grouping loop files a profile
(`None` when the profile is skipped: `if not email: continue`). -/
def emailOf (user : Profile) : Option String :=
  pyStr user.email

/-- One step of building the `all_users_by_email` key list: skip a profile
without a truthy email, and append a new email at the end. -/
def keyStep (acc : List String) (u : Profile) : List String :=
  match emailOf u with
  | none => acc
  | some e => if e ∈ acc then acc else acc ++ [e]

/-- Key list of the `all_users_by_email` dict, in insertion order:
distinct truthy emails in order of first occurrence. -/
def emailKeys (users : List Profile) : List String :=
  users.foldl keyStep []

/-- `all_users_by_email[e][g]`: the profiles filed under email `e` and
product line `g`, in fetch order. -/
def usersIn (users : List Profile) (e : String) (g : PLine) : List Profile :=
  users.filter (fun u => decide (emailOf u = some e) && decide (groupOf u = g))

/-- `users["7S1"]` for email `e`. -/
def s1users (users : List Profile) (e : String) : List Profile :=
  usersIn users e PLine.s7s1

/-- `users["7S2"]` for email `e`. -/
def s2users (users : List Profile) (e : String) : List Profile :=
  usersIn users e PLine.s7s2

/-- `total_profiles_for_email` for email `e`: 7S1 plus 7S2 profile counts
(Other-line profiles are not included, mirroring the script). -/
def totalFor (users : List Profile) (e : String) : Nat :=
  (s1users users e).length + (s2users users e).length

/-- The category an email falls into in the categorization loop
(the `if/elif/elif` chain on `has_active_7s1` / `has_active_7s2`). -/
inductive Category where
  | only_7s2
  | only_7s1
  | both
  | excluded
deriving DecidableEq, Repr

/-- `categoryOf users e`: the branch taken for email `e`. -/
def categoryOf (users : List Profile) (e : String) : Category :=
  let has_active_7s1 := 0 < (s1users users e).length
  let has_active_7s2 := 0 < (s2users users e).length
  if has_active_7s2 ∧ ¬ has_active_7s1 then Category.only_7s2
  else if has_active_7s1 ∧ ¬ has_active_7s2 then Category.only_7s1
  else if has_active_7s1 ∧ has_active_7s2 then Category.both
  else Category.excluded

/-- The per-email fee-waiver flag: any profile in `users["7S1"] + users["7S2"]`
satisfies `is_fee_waiver`. -/
def groupFeeWaiver (users : List Profile) (e : String) : Bool :=
  (s1users users e ++ s2users users e).any is_fee_waiver

/-- Python truthiness for the profile id collected for tagging
(`if user_id:`). -/
def idOf (user : Profile) : Option String :=
  pyStr user.id

/-- Mutable state of the categorization loop (step 5 of the script). -/
structure AggState where
  only_7s2 : List String
  only_7s1 : List String
  both : List String
  emails_with_multiple_profiles : Nat
  profiles_in_both_category : Nat
  only_7s1_profile_ids : List String
  counts : Category → String → Bool → Nat

/-- `subscription_counts[cat][sub][fee_waiver] += 1`. -/
def bump (f : Category → String → Bool → Nat) (c : Category) (s : String) (w : Bool) :
    Category → String → Bool → Nat :=
  fun c' s' w' => if c' = c ∧ s' = s ∧ w' = w then f c' s' w' + 1 else f c' s' w'

/-- The empty loop state (all lists empty, all counters zero). -/
def initAggState : AggState :=
  { only_7s2 := [], only_7s1 := [], both := [],
    emails_with_multiple_profiles := 0, profiles_in_both_category := 0,
    only_7s1_profile_ids := [], counts := fun _ _ _ => 0 }

/-- One iteration of the categorization loop for email `e`:
count toward `emails_with_multiple_profiles` when 7S1+7S2 profiles exceed 1,
resolve subscription and fee-waiver, then dispatch on the category branch. -/
def stepEmail (users : List Profile) (st : AggState) (e : String) : AggState :=
  let s1 := s1users users e
  let s2 := s2users users e
  let total_profiles_for_email := s1.length + s2.length
  let multi := if 1 < total_profiles_for_email then
    st.emails_with_multiple_profiles + 1 else st.emails_with_multiple_profiles
  let subscription := rank_to_subscription (get_highest_subscription s1 s2)
  let fee_waiver := groupFeeWaiver users e
  match categoryOf users e with
  | Category.only_7s2 =>
      { st with only_7s2 := st.only_7s2 ++ [e],
                emails_with_multiple_profiles := multi,
                counts := bump st.counts Category.only_7s2 subscription fee_waiver }
  | Category.only_7s1 =>
      { st with only_7s1 := st.only_7s1 ++ [e],
                only_7s1_profile_ids := st.only_7s1_profile_ids ++ s1.filterMap idOf,
                emails_with_multiple_profiles := multi,
                counts := bump st.counts Category.only_7s1 subscription fee_waiver }
  | Category.both =>
      { st with both := st.both ++ [e],
                profiles_in_both_category :=
                  st.profiles_in_both_category + total_profiles_for_email,
                emails_with_multiple_profiles := multi,
                counts := bump st.counts Category.both subscription fee_waiver }
  | Category.excluded =>
      { st with emails_with_multiple_profiles := multi }

/-- The whole categorization loop: fold over the dict keys in insertion
order. -/
def runAgg (users : List Profile) : AggState :=
  (emailKeys users).foldl (stepEmail users) initAggState

/-- One category object of the final `result` dict. -/
structure CategoryReport where
  count : Nat
  sample : List String
  subscription_breakdown : String → Bool → Nat

/-- The final `result` dict (step 6 of the script). -/
structure AggregateResult where
  total_unique_emails : Nat
  total_profiles_in_window : Nat
  emails_with_multiple_profiles : Nat
  only_7s2 : CategoryReport
  only_7s1 : CategoryReport
  both : CategoryReport
  total_profiles_in_this_category : Nat

/-- The full classification core: window-filter, group, categorize, shuffle
each bucket list with `sh` (a stand-in for `random.shuffle`: any function
returning a permutation models it), and build `result`. -/
def computeResult (min_last_seen_timestamp : Int) (all_users_from_api : List Profile)
    (sh : List String → List String) : AggregateResult :=
  let users := accurate_users min_last_seen_timestamp all_users_from_api
  let st := runAgg users
  let shuffled_7s2 := sh st.only_7s2
  let shuffled_7s1 := sh st.only_7s1
  let shuffled_both := sh st.both
  { total_unique_emails := (emailKeys users).length,
    total_profiles_in_window := users.length,
    emails_with_multiple_profiles := st.emails_with_multiple_profiles,
    only_7s2 := { count := shuffled_7s2.length, sample := shuffled_7s2.take 10,
                  subscription_breakdown := fun s w => st.counts Category.only_7s2 s w },
    only_7s1 := { count := shuffled_7s1.length, sample := shuffled_7s1.take 10,
                  subscription_breakdown := fun s w => st.counts Category.only_7s1 s w },
    both := { count := shuffled_both.length, sample := shuffled_both.take 10,
              subscription_breakdown := fun s w => st.counts Category.both s w },
    total_profiles_in_this_category := st.profiles_in_both_category }

/-- The maximum of a list of ranks, zero when empty. -/
def maxList (l : List Nat) : Nat := l.foldr max 0

/-- The number of distinct truthy emails all of whose profiles fall in the
Other product line. -/
def otherOnlyCount (users : List Profile) : Nat :=
  (emailKeys users).countP
    (fun e => users.all (fun u => !(emailOf u == some e) || (groupOf u == PLine.other)))

/-- The count of distinct emails as the spec's sentence for
`emails_with_multiple_profiles` reads it: every profile of the email,
Other-line profiles included, counts toward the total. -/
def specMultiProfileCount (users : List Profile) : Nat :=
  (emailKeys users).countP
    (fun e => decide (1 < (users.filter (fun u => decide (emailOf u = some e))).length))

/-- A concrete 7S1 profile (external id without the `"usr"` marker). -/
def uA : Profile :=
  { id := some "id1", email := some "a@x", external_id := some "abc",
    last_seen_at := some 100, sub := none, lsat_course := some "Live",
    lsat_purchase_names := some (AttrVal.str "Live Plan"), tags := [] }

/-- A concrete 7S2 profile (external id starting with `"usr"`). -/
def uB : Profile :=
  { id := some "id2", email := some "b@x", external_id := some "usr9",
    last_seen_at := some 100, sub := some "core",
    lsat_purchase_names := none, lsat_course := none, tags := [] }

/-- A concrete Other-line profile (absent external id) sharing `uA`'s
email. -/
def uO : Profile :=
  { id := none, email := some "a@x", external_id := none,
    last_seen_at := some 100, sub := none, lsat_course := none,
    lsat_purchase_names := none, tags := [] }

/-- A concrete profile with every optional field absent. -/
def uEmpty : Profile :=
  { id := none, email := none, external_id := none, last_seen_at := none,
    sub := none, lsat_course := none, lsat_purchase_names := none, tags := [] }

example : get_subscription_rank
    { uEmpty with lsat_course := some "live" } false = 3 := by decide

example : containsWaiver "Fee Waiver Plan" = true := by decide
example : containsWaiver "Live Plan" = false := by decide

/-! ### Lemmas about the categorization loop -/

theorem step_only_7s2 (users : List Profile) (st : AggState) (e : String) :
    (stepEmail users st e).only_7s2 =
      st.only_7s2 ++ (if categoryOf users e = Category.only_7s2 then [e] else []) := by
  unfold stepEmail
  cases h : categoryOf users e <;> simp [h]

theorem step_only_7s1 (users : List Profile) (st : AggState) (e : String) :
    (stepEmail users st e).only_7s1 =
      st.only_7s1 ++ (if categoryOf users e = Category.only_7s1 then [e] else []) := by
  unfold stepEmail
  cases h : categoryOf users e <;> simp [h]

theorem step_both (users : List Profile) (st : AggState) (e : String) :
    (stepEmail users st e).both =
      st.both ++ (if categoryOf users e = Category.both then [e] else []) := by
  unfold stepEmail
  cases h : categoryOf users e <;> simp [h]

theorem step_multi (users : List Profile) (st : AggState) (e : String) :
    (stepEmail users st e).emails_with_multiple_profiles =
      st.emails_with_multiple_profiles + (if 1 < totalFor users e then 1 else 0) := by
  unfold stepEmail totalFor
  cases h : categoryOf users e <;>
    by_cases h2 : 1 < (s1users users e).length + (s2users users e).length <;> simp [h, h2]

theorem step_pibc (users : List Profile) (st : AggState) (e : String) :
    (stepEmail users st e).profiles_in_both_category =
      st.profiles_in_both_category +
        (if categoryOf users e = Category.both then totalFor users e else 0) := by
  unfold stepEmail totalFor
  cases h : categoryOf users e <;> simp [h]

theorem foldl_only_7s2 (users : List Profile) (l : List String) (st : AggState) :
    (l.foldl (stepEmail users) st).only_7s2 =
      st.only_7s2 ++ l.filter (fun e => decide (categoryOf users e = Category.only_7s2)) := by
  induction l generalizing st with
  | nil => simp
  | cons hd tl ih =>
      rw [List.foldl_cons, ih, step_only_7s2]
      by_cases h : categoryOf users hd = Category.only_7s2 <;>
        simp [h, List.filter_cons]

theorem foldl_only_7s1 (users : List Profile) (l : List String) (st : AggState) :
    (l.foldl (stepEmail users) st).only_7s1 =
      st.only_7s1 ++ l.filter (fun e => decide (categoryOf users e = Category.only_7s1)) := by
  induction l generalizing st with
  | nil => simp
  | cons hd tl ih =>
      rw [List.foldl_cons, ih, step_only_7s1]
      by_cases h : categoryOf users hd = Category.only_7s1 <;>
        simp [h, List.filter_cons]

theorem foldl_both (users : List Profile) (l : List String) (st : AggState) :
    (l.foldl (stepEmail users) st).both =
      st.both ++ l.filter (fun e => decide (categoryOf users e = Category.both)) := by
  induction l generalizing st with
  | nil => simp
  | cons hd tl ih =>
      rw [List.foldl_cons, ih, step_both]
      by_cases h : categoryOf users hd = Category.both <;>
        simp [h, List.filter_cons]

theorem foldl_multi (users : List Profile) (l : List String) (st : AggState) :
    (l.foldl (stepEmail users) st).emails_with_multiple_profiles =
      st.emails_with_multiple_profiles +
        l.countP (fun e => decide (1 < totalFor users e)) := by
  induction l generalizing st with
  | nil => simp
  | cons hd tl ih =>
      rw [List.foldl_cons, ih, step_multi]
      by_cases h : 1 < totalFor users hd <;>
        simp [h, List.countP_cons] <;> omega

theorem foldl_pibc (users : List Profile) (l : List String) (st : AggState) :
    (l.foldl (stepEmail users) st).profiles_in_both_category =
      st.profiles_in_both_category +
        ((l.filter (fun e => decide (categoryOf users e = Category.both))).map
          (totalFor users)).sum := by
  induction l generalizing st with
  | nil => simp
  | cons hd tl ih =>
      rw [List.foldl_cons, ih, step_pibc]
      by_cases h : categoryOf users hd = Category.both <;>
        simp [h, List.filter_cons] <;> omega

theorem runAgg_only_7s2 (users : List Profile) :
    (runAgg users).only_7s2 =
      (emailKeys users).filter (fun e => decide (categoryOf users e = Category.only_7s2)) := by
  rw [runAgg, foldl_only_7s2]; rfl

theorem runAgg_only_7s1 (users : List Profile) :
    (runAgg users).only_7s1 =
      (emailKeys users).filter (fun e => decide (categoryOf users e = Category.only_7s1)) := by
  rw [runAgg, foldl_only_7s1]; rfl

theorem runAgg_both (users : List Profile) :
    (runAgg users).both =
      (emailKeys users).filter (fun e => decide (categoryOf users e = Category.both)) := by
  rw [runAgg, foldl_both]; rfl

theorem runAgg_multi (users : List Profile) :
    (runAgg users).emails_with_multiple_profiles =
      (emailKeys users).countP (fun e => decide (1 < totalFor users e)) := by
  rw [runAgg, foldl_multi]; simp [initAggState]

theorem runAgg_pibc (users : List Profile) :
    (runAgg users).profiles_in_both_category =
      (((emailKeys users).filter
          (fun e => decide (categoryOf users e = Category.both))).map
        (totalFor users)).sum := by
  rw [runAgg, foldl_pibc]; simp [initAggState]

/-! ### Lemmas about the email key list -/

theorem mem_foldl_keyStep (l : List Profile) (acc : List String) (e : String) :
    e ∈ l.foldl keyStep acc ↔ e ∈ acc ∨ ∃ u ∈ l, emailOf u = some e := by
  induction l generalizing acc with
  | nil => simp
  | cons hd tl ih =>
      rw [List.foldl_cons, ih]
      unfold keyStep
      cases h : emailOf hd with
      | none =>
          simp only [List.mem_cons]
          constructor
          · rintro (ha | ⟨u, hu, he⟩)
            · exact Or.inl ha
            · exact Or.inr ⟨u, Or.inr hu, he⟩
          · rintro (ha | ⟨u, hu | hu, he⟩)
            · exact Or.inl ha
            · rw [hu, h] at he; cases he
            · exact Or.inr ⟨u, hu, he⟩
      | some e0 =>
          by_cases hc : e0 ∈ acc <;> simp only [hc, if_true, if_false] <;> constructor
          · rintro (ha | ⟨u, hu, he⟩)
            · exact Or.inl ha
            · exact Or.inr ⟨u, List.mem_cons_of_mem hd hu, he⟩
          · rintro (ha | ⟨u, hu, he⟩)
            · exact Or.inl ha
            · rcases List.mem_cons.mp hu with hu | hu
              · rw [hu, h] at he
                cases he
                exact Or.inl hc
              · exact Or.inr ⟨u, hu, he⟩
          · rintro (ha | ⟨u, hu, he⟩)
            · rcases List.mem_append.mp ha with ha | ha
              · exact Or.inl ha
              · refine Or.inr ⟨hd, List.mem_cons_self hd tl, ?_⟩
                rw [h, List.mem_singleton.mp ha]
            · exact Or.inr ⟨u, List.mem_cons_of_mem hd hu, he⟩
          · rintro (ha | ⟨u, hu, he⟩)
            · exact Or.inl (List.mem_append.mpr (Or.inl ha))
            · rcases List.mem_cons.mp hu with hu | hu
              · rw [hu, h] at he
                cases he
                exact Or.inl (List.mem_append.mpr (Or.inr (List.mem_singleton.mpr rfl)))
              · exact Or.inr ⟨u, hu, he⟩

theorem mem_emailKeys (users : List Profile) (e : String) :
    e ∈ emailKeys users ↔ ∃ u ∈ users, emailOf u = some e := by
  rw [emailKeys, mem_foldl_keyStep]
  simp

theorem nodup_foldl_keyStep (l : List Profile) (acc : List String) (h : acc.Nodup) :
    (l.foldl keyStep acc).Nodup := by
  induction l generalizing acc with
  | nil => exact h
  | cons hd tl ih =>
      rw [List.foldl_cons]
      apply ih
      unfold keyStep
      cases emailOf hd with
      | none => exact h
      | some e0 =>
          by_cases hc : e0 ∈ acc
          · simp only [hc, if_true]; exact h
          · simp only [hc, if_false]
            exact List.Nodup.append h (List.nodup_singleton e0)
              (fun a ha hb => hc (by rwa [List.mem_singleton.mp hb] at ha))

theorem emailKeys_nodup (users : List Profile) : (emailKeys users).Nodup :=
  nodup_foldl_keyStep users [] List.nodup_nil

/-! ### Category characterization -/

theorem categoryOf_of_s2 (users : List Profile) (e : String)
    (h2 : 0 < (s2users users e).length) (h1 : ¬ 0 < (s1users users e).length) :
    categoryOf users e = Category.only_7s2 := by
  unfold categoryOf
  simp only []
  rw [if_pos ⟨h2, h1⟩]

theorem categoryOf_of_s1 (users : List Profile) (e : String)
    (h1 : 0 < (s1users users e).length) (h2 : ¬ 0 < (s2users users e).length) :
    categoryOf users e = Category.only_7s1 := by
  unfold categoryOf
  simp only []
  rw [if_neg (fun h => h2 h.1), if_pos ⟨h1, h2⟩]

theorem categoryOf_of_both (users : List Profile) (e : String)
    (h1 : 0 < (s1users users e).length) (h2 : 0 < (s2users users e).length) :
    categoryOf users e = Category.both := by
  unfold categoryOf
  simp only []
  rw [if_neg (fun h => h.2 h1), if_neg (fun h => h.2 h2), if_pos ⟨h1, h2⟩]

theorem categoryOf_of_excluded (users : List Profile) (e : String)
    (h1 : ¬ 0 < (s1users users e).length) (h2 : ¬ 0 < (s2users users e).length) :
    categoryOf users e = Category.excluded := by
  unfold categoryOf
  simp only []
  rw [if_neg (fun h => h2 h.1), if_neg (fun h => h1 h.1), if_neg (fun h => h1 h.1)]

theorem categoryOf_eq_only_7s2 (users : List Profile) (e : String) :
    categoryOf users e = Category.only_7s2 ↔
      0 < (s2users users e).length ∧ (s1users users e).length = 0 := by
  constructor
  · intro h
    by_cases h1 : 0 < (s1users users e).length <;>
      by_cases h2 : 0 < (s2users users e).length
    · rw [categoryOf_of_both users e h1 h2] at h; exact absurd h (by decide)
    · rw [categoryOf_of_s1 users e h1 h2] at h; exact absurd h (by decide)
    · exact ⟨h2, by omega⟩
    · rw [categoryOf_of_excluded users e h1 h2] at h; exact absurd h (by decide)
  · rintro ⟨h2, h1z⟩
    exact categoryOf_of_s2 users e h2 (by omega)

theorem categoryOf_eq_only_7s1 (users : List Profile) (e : String) :
    categoryOf users e = Category.only_7s1 ↔
      0 < (s1users users e).length ∧ (s2users users e).length = 0 := by
  constructor
  · intro h
    by_cases h1 : 0 < (s1users users e).length <;>
      by_cases h2 : 0 < (s2users users e).length
    · rw [categoryOf_of_both users e h1 h2] at h; exact absurd h (by decide)
    · exact ⟨h1, by omega⟩
    · rw [categoryOf_of_s2 users e h2 h1] at h; exact absurd h (by decide)
    · rw [categoryOf_of_excluded users e h1 h2] at h; exact absurd h (by decide)
  · rintro ⟨h1, h2z⟩
    exact categoryOf_of_s1 users e h1 (by omega)

theorem categoryOf_eq_both (users : List Profile) (e : String) :
    categoryOf users e = Category.both ↔
      0 < (s1users users e).length ∧ 0 < (s2users users e).length := by
  constructor
  · intro h
    by_cases h1 : 0 < (s1users users e).length <;>
      by_cases h2 : 0 < (s2users users e).length
    · exact ⟨h1, h2⟩
    · rw [categoryOf_of_s1 users e h1 h2] at h; exact absurd h (by decide)
    · rw [categoryOf_of_s2 users e h2 h1] at h; exact absurd h (by decide)
    · rw [categoryOf_of_excluded users e h1 h2] at h; exact absurd h (by decide)
  · rintro ⟨h1, h2⟩
    exact categoryOf_of_both users e h1 h2

theorem categoryOf_eq_excluded (users : List Profile) (e : String) :
    categoryOf users e = Category.excluded ↔
      (s1users users e).length = 0 ∧ (s2users users e).length = 0 := by
  constructor
  · intro h
    by_cases h1 : 0 < (s1users users e).length <;>
      by_cases h2 : 0 < (s2users users e).length
    · rw [categoryOf_of_both users e h1 h2] at h; exact absurd h (by decide)
    · rw [categoryOf_of_s1 users e h1 h2] at h; exact absurd h (by decide)
    · rw [categoryOf_of_s2 users e h2 h1] at h; exact absurd h (by decide)
    · exact ⟨by omega, by omega⟩
  · rintro ⟨h1z, h2z⟩
    exact categoryOf_of_excluded users e (by omega) (by omega)

/-! ### Excluded emails are exactly the all-Other emails -/

theorem s1users_nil_iff (users : List Profile) (e : String) :
    (s1users users e).length = 0 ↔
      ∀ u ∈ users, emailOf u = some e → groupOf u ≠ PLine.s7s1 := by
  rw [List.length_eq_zero, s1users, usersIn, List.filter_eq_nil]
  constructor
  · intro h u hu he hg
    exact h u hu (by simp [he, hg])
  · intro h u hu hb
    simp only [Bool.and_eq_true, decide_eq_true_eq] at hb
    exact h u hu hb.1 hb.2

theorem s2users_nil_iff (users : List Profile) (e : String) :
    (s2users users e).length = 0 ↔
      ∀ u ∈ users, emailOf u = some e → groupOf u ≠ PLine.s7s2 := by
  rw [List.length_eq_zero, s2users, usersIn, List.filter_eq_nil]
  constructor
  · intro h u hu he hg
    exact h u hu (by simp [he, hg])
  · intro h u hu hb
    simp only [Bool.and_eq_true, decide_eq_true_eq] at hb
    exact h u hu hb.1 hb.2

theorem excluded_iff_all_other (users : List Profile) (e : String) :
    categoryOf users e = Category.excluded ↔
      ∀ u ∈ users, emailOf u = some e → groupOf u = PLine.other := by
  rw [categoryOf_eq_excluded, s1users_nil_iff, s2users_nil_iff]
  constructor
  · rintro ⟨h1, h2⟩ u hu he
    cases hg : groupOf u with
    | s7s1 => exact absurd hg (h1 u hu he)
    | s7s2 => exact absurd hg (h2 u hu he)
    | other => rfl
  · intro h
    refine ⟨?_, ?_⟩
    · intro u hu he hg
      rw [h u hu he] at hg
      cases hg
    · intro u hu he hg
      rw [h u hu he] at hg
      cases hg

/-! ### Maximum-rank lemmas -/

theorem foldl_max_eq {α : Type} (f : α → Nat) (l : List α) (a : Nat) :
    l.foldl (fun m u => max m (f u)) a = max a (maxList (l.map f)) := by
  induction l generalizing a with
  | nil => simp [maxList]
  | cons hd tl ih =>
      rw [List.foldl_cons, ih]
      simp only [List.map_cons, maxList, List.foldr_cons]
      omega

theorem le_maxList {l : List Nat} {a : Nat} (h : a ∈ l) : a ≤ maxList l := by
  induction l with
  | nil => cases h
  | cons hd tl ih =>
      rcases List.mem_cons.mp h with h | h
      · have hcons : maxList (hd :: tl) = max hd (maxList tl) := rfl
        rw [hcons, h]
        omega
      · have h2 : a ≤ maxList tl := ih h
        have hcons : maxList (hd :: tl) = max hd (maxList tl) := rfl
        rw [hcons]
        omega

theorem maxList_eq_zero_or_mem (l : List Nat) : maxList l = 0 ∨ maxList l ∈ l := by
  induction l with
  | nil => exact Or.inl rfl
  | cons hd tl ih =>
      have hcons : maxList (hd :: tl) = max hd (maxList tl) := rfl
      rw [hcons]
      rcases Nat.le_total hd (maxList tl) with h | h
      · rcases ih with h0 | hm
        · left; omega
        · right
          rw [max_eq_right h]
          exact List.mem_cons_of_mem hd hm
      · right
        rw [max_eq_left h]
        exact List.mem_cons_self hd tl

theorem get_highest_subscription_eq (users_7s1 users_7s2 : List Profile) :
    get_highest_subscription users_7s1 users_7s2 =
      max (maxList (users_7s1.map (fun u => get_subscription_rank u false)))
          (maxList (users_7s2.map (fun u => get_subscription_rank u true))) := by
  unfold get_highest_subscription
  simp only []
  rw [foldl_max_eq, foldl_max_eq]
  omega

/-! ### Email-count partition -/

theorem length_eq_category_counts (users : List Profile) (l : List String) :
    l.length =
      l.countP (fun e => decide (categoryOf users e = Category.only_7s2)) +
      l.countP (fun e => decide (categoryOf users e = Category.only_7s1)) +
      l.countP (fun e => decide (categoryOf users e = Category.both)) +
      l.countP (fun e => decide (categoryOf users e = Category.excluded)) := by
  induction l with
  | nil => simp
  | cons hd tl ih =>
      simp only [List.length_cons, List.countP_cons, ih]
      cases h : categoryOf users hd <;> simp [h] <;> omega

/-! ### Claim theorems -/

/-- C10: for every lower bound `T ≥ 0`, a profile with an absent
`last_seen_at` is treated as having last-seen 0, hence excluded from the
window; the filter keeps exactly the profiles whose defaulted last-seen is
strictly greater than `T`. -/
theorem claim_c10 (T : Int) (ps : List Profile) (hT : 0 ≤ T) :
    (∀ u ∈ ps, u.last_seen_at = none → u ∉ accurate_users T ps) ∧
    (∀ u, u ∈ accurate_users T ps ↔ u ∈ ps ∧ T < u.last_seen_at.getD 0) := by
  constructor
  · intro u hu hnone hmem
    rw [accurate_users, List.mem_filter] at hmem
    rw [hnone] at hmem
    simp only [Option.getD_none, decide_eq_true_eq] at hmem
    omega
  · intro u
    rw [accurate_users, List.mem_filter]
    simp

/-- C10 witness: at `T = 0`, the profile with every field absent is
excluded from the window. -/
theorem claim_c10_witness : uEmpty ∉ accurate_users 0 [uEmpty] :=
  (claim_c10 0 [uEmpty] (by decide)).1 uEmpty (by decide) rfl

/-- C3 counterexample: a 7S1 profile whose `lsat_course` is the 7S2
vocabulary word `"live"` (resp. `"core"`) resolves to rank 3 (resp. 2),
not to Unknown (0): the lookup table is shared between product lines. -/
theorem claim_c3_counterexample :
    get_subscription_rank { uEmpty with lsat_course := some "live" } false = 3 ∧
    get_subscription_rank { uEmpty with lsat_course := some "core" } false = 2 ∧
    get_subscription_rank { uEmpty with lsat_course := some "live" } false ≠ 0 := by
  refine ⟨by decide, by decide, by decide⟩

/-- C3 amended: the resolver reads the product-line-specific raw field
(`sub` for 7S2, `lsat_course` for 7S1) but looks it up in the single
shared `SUBSCRIPTION_RANKS` table: the same raw value resolves to the same
tier on either product line, and a value absent from the shared table (or
a missing/empty field) resolves to Unknown (0). -/
theorem claim_c3_amended (u1 u2 : Profile) (h : u1.lsat_course = u2.sub) :
    get_subscription_rank u1 false = get_subscription_rank u2 true ∧
    (∀ v, u1.lsat_course = some v → SUBSCRIPTION_RANKS.lookup v = none →
      get_subscription_rank u1 false = 0) ∧
    (u1.lsat_course = none → get_subscription_rank u1 false = 0) := by
  refine ⟨?_, ?_, ?_⟩
  · unfold get_subscription_rank
    simp only [if_true, if_false, Bool.false_eq_true, ite_false, ite_true]
    rw [h]
  · intro v hv hlook
    unfold get_subscription_rank
    simp only [Bool.false_eq_true, ite_false, hv, hlook]
    split <;> simp [hlook]
  · intro hv
    unfold get_subscription_rank
    simp [hv]

/-- C3 amended witness: the 7S2 word `"live"` resolves identically (to 3)
through the 7S1 field and through the 7S2 field. -/
theorem claim_c3_amended_witness :
    get_subscription_rank { uEmpty with lsat_course := some "live" } false =
      get_subscription_rank { uEmpty with sub := some "live" } true :=
  (claim_c3_amended { uEmpty with lsat_course := some "live" }
    { uEmpty with sub := some "live" } rfl).1

/-- C4: the group tier is the maximum single-profile tier: it bounds every
7S1 and 7S2 profile's tier, it is attained by some profile unless it is 0,
it is 0 when every profile resolves to Unknown, and appending an
Other-line profile to the input leaves the per-email computation
unchanged. -/
theorem claim_c4 (users_7s1 users_7s2 : List Profile) :
    (∀ u ∈ users_7s1,
      get_subscription_rank u false ≤ get_highest_subscription users_7s1 users_7s2) ∧
    (∀ u ∈ users_7s2,
      get_subscription_rank u true ≤ get_highest_subscription users_7s1 users_7s2) ∧
    (get_highest_subscription users_7s1 users_7s2 = 0 ∨
      (∃ u ∈ users_7s1,
        get_subscription_rank u false = get_highest_subscription users_7s1 users_7s2) ∨
      (∃ u ∈ users_7s2,
        get_subscription_rank u true = get_highest_subscription users_7s1 users_7s2)) ∧
    ((∀ u ∈ users_7s1, get_subscription_rank u false = 0) →
      (∀ u ∈ users_7s2, get_subscription_rank u true = 0) →
      get_highest_subscription users_7s1 users_7s2 = 0) ∧
    (∀ (users : List Profile) (e : String) (u : Profile), groupOf u = PLine.other →
      get_highest_subscription (s1users (users ++ [u]) e) (s2users (users ++ [u]) e) =
        get_highest_subscription (s1users users e) (s2users users e)) := by
  rw [get_highest_subscription_eq]
  refine ⟨?_, ?_, ?_, ?_, ?_⟩
  · intro u hu
    have : get_subscription_rank u false ∈
        users_7s1.map (fun u => get_subscription_rank u false) :=
      List.mem_map_of_mem _ hu
    have := le_maxList this
    omega
  · intro u hu
    have : get_subscription_rank u true ∈
        users_7s2.map (fun u => get_subscription_rank u true) :=
      List.mem_map_of_mem _ hu
    have := le_maxList this
    omega
  · rcases maxList_eq_zero_or_mem (users_7s1.map (fun u => get_subscription_rank u false))
      with h1 | h1 <;>
    rcases maxList_eq_zero_or_mem (users_7s2.map (fun u => get_subscription_rank u true))
      with h2 | h2
    · left; omega
    · rcases List.mem_map.mp h2 with ⟨u, hu, hq⟩
      rcases Nat.eq_zero_or_pos (maxList (users_7s2.map (fun u => get_subscription_rank u true)))
        with hz | hp
      · left; omega
      · right; right
        exact ⟨u, hu, by omega⟩
    · rcases List.mem_map.mp h1 with ⟨u, hu, hq⟩
      rcases Nat.eq_zero_or_pos (maxList (users_7s1.map (fun u => get_subscription_rank u false)))
        with hz | hp
      · left; omega
      · right; left
        refine ⟨u, hu, ?_⟩
        rw [hq, h2]
        have := le_maxList (List.mem_map_of_mem (fun u => get_subscription_rank u false) hu)
        omega
    · rcases List.mem_map.mp h1 with ⟨u1, hu1, hq1⟩
      rcases List.mem_map.mp h2 with ⟨u2, hu2, hq2⟩
      rcases Nat.le_total (maxList (users_7s1.map (fun u => get_subscription_rank u false)))
        (maxList (users_7s2.map (fun u => get_subscription_rank u true))) with hle | hle
      · right; right
        exact ⟨u2, hu2, by omega⟩
      · right; left
        exact ⟨u1, hu1, by omega⟩
  · intro h1 h2
    rcases maxList_eq_zero_or_mem (users_7s1.map (fun u => get_subscription_rank u false))
      with hm1 | hm1 <;>
    rcases maxList_eq_zero_or_mem (users_7s2.map (fun u => get_subscription_rank u true))
      with hm2 | hm2
    · omega
    · rcases List.mem_map.mp hm2 with ⟨u, hu, hq⟩
      have := h2 u hu
      omega
    · rcases List.mem_map.mp hm1 with ⟨u, hu, hq⟩
      have := h1 u hu
      omega
    · rcases List.mem_map.mp hm1 with ⟨u1, hu1, hq1⟩
      rcases List.mem_map.mp hm2 with ⟨u2, hu2, hq2⟩
      have := h1 u1 hu1
      have := h2 u2 hu2
      omega
  · intro users e u hg
    have h1 : s1users (users ++ [u]) e = s1users users e := by
      rw [s1users, usersIn, List.filter_append]
      have : List.filter (fun v => decide (emailOf v = some e) &&
          decide (groupOf v = PLine.s7s1)) [u] = [] := by
        simp [hg]
      rw [this, List.append_nil, s1users, usersIn]
    have h2 : s2users (users ++ [u]) e = s2users users e := by
      rw [s2users, usersIn, List.filter_append]
      have : List.filter (fun v => decide (emailOf v = some e) &&
          decide (groupOf v = PLine.s7s2)) [u] = [] := by
        simp [hg]
      rw [this, List.append_nil, s2users, usersIn]
    rw [h1, h2]

/-- C4 witness: one 7S1 profile with tier Live (3) and one 7S2 profile
with tier Core (2): the Live profile's tier is bounded by the group
maximum. -/
theorem claim_c4_witness :
    get_subscription_rank uA false ≤ get_highest_subscription [uA] [uB] :=
  (claim_c4 [uA] [uB]).1 uA (by decide)

/-- C5: the fee-waiver predicate holds iff the tag-id set contains the
fixed waiver tag id or the purchase-descriptor text (defaulting to `""`)
is a string containing `"waiver"` case-insensitively; absent fields
default to not-a-waiver; and the group flag is the OR of the predicate
over the group's 7S1 and 7S2 profiles. -/
theorem claim_c5 :
    (∀ u : Profile,
      is_fee_waiver u = true ↔
        (some FEE_WAIVER_TAG_ID ∈ u.tags ∨
          ∃ s, u.lsat_purchase_names.getD (AttrVal.str "") = AttrVal.str s ∧
            ∃ pre post, lowerChars s = pre ++ "waiver".toList ++ post)) ∧
    (∀ u : Profile, u.tags = [] → u.lsat_purchase_names = none →
      is_fee_waiver u = false) ∧
    (∀ (users : List Profile) (e : String),
      groupFeeWaiver users e = true ↔
        ∃ u, (u ∈ s1users users e ∨ u ∈ s2users users e) ∧ is_fee_waiver u = true) := by
  refine ⟨?_, ?_, ?_⟩
  · intro u
    unfold is_fee_waiver
    split
    · rename_i htag
      simp only [true_iff]
      left
      rcases List.any_eq_true.mp htag with ⟨t, ht, hbeq⟩
      rcases beq_iff_eq.mp hbeq
      exact ht
    · rename_i htag
      have hnotag : ¬ some FEE_WAIVER_TAG_ID ∈ u.tags := by
        intro hmem
        exact htag (List.any_eq_true.mpr ⟨some FEE_WAIVER_TAG_ID, hmem, beq_iff_eq.mpr rfl⟩)
      cases hval : u.lsat_purchase_names.getD (AttrVal.str "") with
      | str s =>
          simp only [hval]
          rw [containsWaiver, decide_eq_true_iff]
          constructor
          · rintro ⟨pre, post, hinf⟩
            exact Or.inr ⟨s, rfl, pre, post, hinf.symm⟩
          · rintro (hmem | ⟨s', hs', pre, post, hinf⟩)
            · exact absurd hmem hnotag
            · injection hs' with hss
              subst hss
              exact ⟨pre, post, hinf.symm⟩
      | nonstr =>
          simp only [hval]
          constructor
          · intro hfalse
            cases hfalse
          · rintro (hmem | ⟨s', hs', _⟩)
            · exact absurd hmem hnotag
            · cases hs'
  · intro u htags hpn
    unfold is_fee_waiver
    rw [htags, hpn]
    simp [containsWaiver]
    decide
  · intro users e
    rw [groupFeeWaiver, List.any_eq_true]
    constructor
    · rintro ⟨u, hu, hw⟩
      exact ⟨u, List.mem_append.mp hu, hw⟩
    · rintro ⟨u, hu, hw⟩
      exact ⟨u, List.mem_append.mpr hu, hw⟩

/-- C5 witness: the fully-absent profile is not a fee waiver. -/
theorem claim_c5_witness : is_fee_waiver uEmpty = false :=
  claim_c5.2.1 uEmpty rfl rfl

/-- C9: malformed or missing optional fields degrade to defaults rather
than failing: absent subscription attributes give rank Unknown (0), a
non-string purchase descriptor reduces fee-waiver to the tag test alone,
a profile with no truthy email contributes nothing to the grouped map,
and the core produces its aggregate record for every input. -/
theorem claim_c9 :
    (∀ u : Profile, u.sub = none → u.lsat_course = none →
      ∀ b : Bool, get_subscription_rank u b = 0) ∧
    (∀ u : Profile, u.lsat_purchase_names = some AttrVal.nonstr →
      is_fee_waiver u = u.tags.any (fun t => t == some FEE_WAIVER_TAG_ID)) ∧
    (∀ (users : List Profile) (u : Profile), emailOf u = none →
      emailKeys (users ++ [u]) = emailKeys users ∧
      ∀ (e : String) (g : PLine), usersIn (users ++ [u]) e g = usersIn users e g) ∧
    (∀ (T : Int) (ps : List Profile) (sh : List String → List String),
      (computeResult T ps sh).total_profiles_in_window = (accurate_users T ps).length ∧
      (computeResult T ps sh).total_unique_emails =
        (emailKeys (accurate_users T ps)).length) := by
  refine ⟨?_, ?_, ?_, ?_⟩
  · intro u hs hc b
    unfold get_subscription_rank
    cases b <;> simp [hs, hc]
  · intro u hpn
    unfold is_fee_waiver
    rw [hpn]
    split
    · rename_i htag
      rw [htag]
    · rename_i htag
      simp only [Bool.not_eq_true] at htag
      rw [htag]
      rfl
  · intro users u hmail
    constructor
    · rw [emailKeys, emailKeys, List.foldl_append]
      show keyStep (users.foldl keyStep []) u = users.foldl keyStep []
      rw [keyStep, hmail]
    · intro e g
      rw [usersIn, usersIn, List.filter_append]
      have : List.filter (fun v => decide (emailOf v = some e) &&
          decide (groupOf v = g)) [u] = [] := by
        simp [hmail]
      rw [this, List.append_nil]
  · intro T ps sh
    exact ⟨rfl, rfl⟩

/-- C9 witness: the fully-absent profile resolves to rank 0 on both
product lines, and appending it to an input leaves the grouped map's keys
unchanged. -/
theorem claim_c9_witness :
    get_subscription_rank uEmpty false = 0 ∧ emailKeys [uA, uEmpty] = emailKeys [uA] :=
  ⟨claim_c9.1 uEmpty rfl rfl false, (claim_c9.2.2.1 [uA] uEmpty rfl).1⟩

/-- C1: every email of the grouped map lands in exactly one of the four
classes: only-7S1 iff it has a 7S1 profile and no 7S2 profile, only-7S2
symmetrically, both iff one of each; an all-Other email is in none of the
three buckets; and the three bucket lists are pairwise disjoint. -/
theorem claim_c1 (users : List Profile) :
    (∀ e, e ∈ emailKeys users →
      ((e ∈ (runAgg users).only_7s1 ↔
          0 < (s1users users e).length ∧ (s2users users e).length = 0) ∧
       (e ∈ (runAgg users).only_7s2 ↔
          0 < (s2users users e).length ∧ (s1users users e).length = 0) ∧
       (e ∈ (runAgg users).both ↔
          0 < (s1users users e).length ∧ 0 < (s2users users e).length) ∧
       ((∀ u ∈ users, emailOf u = some e → groupOf u = PLine.other) →
          e ∉ (runAgg users).only_7s1 ∧ e ∉ (runAgg users).only_7s2 ∧
          e ∉ (runAgg users).both))) ∧
    List.Disjoint (runAgg users).only_7s1 (runAgg users).only_7s2 ∧
    List.Disjoint (runAgg users).only_7s1 (runAgg users).both ∧
    List.Disjoint (runAgg users).only_7s2 (runAgg users).both := by
  have m1 : ∀ e, e ∈ (runAgg users).only_7s1 ↔
      e ∈ emailKeys users ∧ categoryOf users e = Category.only_7s1 := by
    intro e
    rw [runAgg_only_7s1, List.mem_filter, decide_eq_true_iff]
  have m2 : ∀ e, e ∈ (runAgg users).only_7s2 ↔
      e ∈ emailKeys users ∧ categoryOf users e = Category.only_7s2 := by
    intro e
    rw [runAgg_only_7s2, List.mem_filter, decide_eq_true_iff]
  have mb : ∀ e, e ∈ (runAgg users).both ↔
      e ∈ emailKeys users ∧ categoryOf users e = Category.both := by
    intro e
    rw [runAgg_both, List.mem_filter, decide_eq_true_iff]
  refine ⟨?_, ?_, ?_, ?_⟩
  · intro e he
    refine ⟨?_, ?_, ?_, ?_⟩
    · rw [m1, categoryOf_eq_only_7s1]
      simp [he]
    · rw [m2, categoryOf_eq_only_7s2]
      simp [he]
    · rw [mb, categoryOf_eq_both]
      simp [he]
    · intro hall
      have hexcl : categoryOf users e = Category.excluded :=
        (excluded_iff_all_other users e).mpr hall
      refine ⟨?_, ?_, ?_⟩
      · rw [m1]
        rintro ⟨-, hcat⟩
        rw [hexcl] at hcat
        cases hcat
      · rw [m2]
        rintro ⟨-, hcat⟩
        rw [hexcl] at hcat
        cases hcat
      · rw [mb]
        rintro ⟨-, hcat⟩
        rw [hexcl] at hcat
        cases hcat
  · intro e ha hb
    rcases (m1 e).mp ha with ⟨-, h1⟩
    rcases (m2 e).mp hb with ⟨-, h2⟩
    rw [h1] at h2
    cases h2
  · intro e ha hb
    rcases (m1 e).mp ha with ⟨-, h1⟩
    rcases (mb e).mp hb with ⟨-, h2⟩
    rw [h1] at h2
    cases h2
  · intro e ha hb
    rcases (m2 e).mp ha with ⟨-, h1⟩
    rcases (mb e).mp hb with ⟨-, h2⟩
    rw [h1] at h2
    cases h2

/-- C1 witness: in the two-profile input `[uA, uB]`, the email `"a@x"` is
in the grouped map and sits in the only-7S1 bucket, having one 7S1 profile
and no 7S2 profile. -/
theorem claim_c1_witness :
    "a@x" ∈ (runAgg [uA, uB]).only_7s1 ↔
      0 < (s1users [uA, uB] "a@x").length ∧ (s2users [uA, uB] "a@x").length = 0 :=
  ((claim_c1 [uA, uB]).1 "a@x" (by decide)).1

/-- C2 counterexample: `[uA, uO]` has one distinct email with two profiles
in the window (one 7S1 and one Other), so the claim says the tally is 1;
the code tallies only 7S1+7S2 profiles and reports 0. -/
theorem claim_c2_counterexample :
    (runAgg [uA, uO]).emails_with_multiple_profiles = 0 ∧
    specMultiProfileCount [uA, uO] = 1 ∧
    (runAgg [uA, uO]).emails_with_multiple_profiles ≠ specMultiProfileCount [uA, uO] := by
  refine ⟨by decide, by decide, by decide⟩

/-- C2 amended: `emails_with_multiple_profiles` equals the number of
distinct emails whose count of 7S1 plus 7S2 profiles exceeds 1 —
Other-line profiles do not count toward this total; the tally is computed
over the grouped map's (duplicate-free) key list, independent of the
category the email lands in. -/
theorem claim_c2_amended (users : List Profile) :
    (emailKeys users).Nodup ∧
    (∀ e, e ∈ emailKeys users ↔ ∃ u ∈ users, emailOf u = some e) ∧
    (runAgg users).emails_with_multiple_profiles =
      (emailKeys users).countP
        (fun e => decide (1 < (s1users users e).length + (s2users users e).length)) := by
  refine ⟨emailKeys_nodup users, mem_emailKeys users, ?_⟩
  rw [runAgg_multi]
  apply List.countP_congr
  intro e _
  rw [totalFor]

/-- The all-Other email count is the count of excluded-category keys. -/
theorem otherOnlyCount_eq (users : List Profile) :
    otherOnlyCount users =
      (emailKeys users).countP (fun e => decide (categoryOf users e = Category.excluded)) := by
  rw [otherOnlyCount]
  apply List.countP_congr
  intro e _
  have hl : (users.all fun u => !(emailOf u == some e) || (groupOf u == PLine.other)) = true ↔
      ∀ u ∈ users, emailOf u = some e → groupOf u = PLine.other := by
    rw [List.all_eq_true]
    constructor
    · intro h u hu he
      have := h u hu
      simp only [Bool.or_eq_true, Bool.not_eq_true', beq_eq_false_iff_ne, ne_eq,
        beq_iff_eq] at this
      rcases this with hne | hg
      · exact absurd he hne
      · exact hg
    · intro h u hu
      simp only [Bool.or_eq_true, Bool.not_eq_true', beq_eq_false_iff_ne, ne_eq, beq_iff_eq]
      by_cases he : emailOf u = some e
      · exact Or.inr (h u hu he)
      · exact Or.inl he
  have hr : decide (categoryOf users e = Category.excluded) = true ↔
      ∀ u ∈ users, emailOf u = some e → groupOf u = PLine.other := by
    rw [decide_eq_true_iff]
    exact excluded_iff_all_other users e
  cases hb : (users.all fun u => !(emailOf u == some e) || (groupOf u == PLine.other)) <;>
    cases hc : decide (categoryOf users e = Category.excluded)
  · rfl
  · exact absurd (hl.mpr (hr.mp hc)) (by simp [hb])
  · exact absurd (hr.mpr (hl.mp hb)) (by simp [hc])
  · rfl

/-- C6: `total_unique_emails` equals the sum of the three bucket counts
plus the number of emails all of whose profiles are Other-line. -/
theorem claim_c6 (T : Int) (ps : List Profile) (sh : List String → List String)
    (hsh : ∀ l, (sh l).Perm l) :
    (computeResult T ps sh).total_unique_emails =
      (computeResult T ps sh).only_7s1.count + (computeResult T ps sh).only_7s2.count +
      (computeResult T ps sh).both.count + otherOnlyCount (accurate_users T ps) := by
  rw [computeResult]
  simp only []
  rw [(hsh _).length_eq, (hsh _).length_eq, (hsh _).length_eq]
  rw [runAgg_only_7s1, runAgg_only_7s2, runAgg_both, otherOnlyCount_eq]
  rw [← List.countP_eq_length_filter, ← List.countP_eq_length_filter,
    ← List.countP_eq_length_filter]
  have h := length_eq_category_counts (accurate_users T ps) (emailKeys (accurate_users T ps))
  omega

/-- C6 witness: the identity permutation on the three-profile input
`[uA, uB, uO]`. -/
theorem claim_c6_witness :
    (computeResult 0 [uA, uB, uO] id).total_unique_emails =
      (computeResult 0 [uA, uB, uO] id).only_7s1.count +
      (computeResult 0 [uA, uB, uO] id).only_7s2.count +
      (computeResult 0 [uA, uB, uO] id).both.count +
      otherOnlyCount (accurate_users 0 [uA, uB, uO]) :=
  claim_c6 0 [uA, uB, uO] id (fun l => List.Perm.refl l)

/-- Sum of a function that is at least 2 on every list element is at least
twice the list length. -/
theorem two_mul_length_le_sum {α : Type} (f : α → Nat) (l : List α)
    (h : ∀ a ∈ l, 2 ≤ f a) : 2 * l.length ≤ (l.map f).sum := by
  induction l with
  | nil => simp
  | cons hd tl ih =>
      simp only [List.map_cons, List.sum_cons, List.length_cons]
      have h1 := h hd (List.mem_cons_self hd tl)
      have h2 := ih (fun a ha => h a (List.mem_cons_of_mem hd ha))
      omega

/-- C7: the Both bucket's `total_profiles_in_this_category` sums, over the
Both emails, the 7S1-plus-7S2 profile count of each, and hence is at least
twice the Both email count. -/
theorem claim_c7 (T : Int) (ps : List Profile) (sh : List String → List String)
    (hsh : ∀ l, (sh l).Perm l) :
    (computeResult T ps sh).total_profiles_in_this_category =
      (((emailKeys (accurate_users T ps)).filter
          (fun e => decide (categoryOf (accurate_users T ps) e = Category.both))).map
        (fun e => (s1users (accurate_users T ps) e).length +
          (s2users (accurate_users T ps) e).length)).sum ∧
    2 * (computeResult T ps sh).both.count ≤
      (computeResult T ps sh).total_profiles_in_this_category := by
  have hpibc : (computeResult T ps sh).total_profiles_in_this_category =
      (((emailKeys (accurate_users T ps)).filter
          (fun e => decide (categoryOf (accurate_users T ps) e = Category.both))).map
        (totalFor (accurate_users T ps))).sum := by
    rw [computeResult]
    simp only []
    exact runAgg_pibc (accurate_users T ps)
  constructor
  · rw [hpibc]
    rfl
  · have hcount : (computeResult T ps sh).both.count =
        ((emailKeys (accurate_users T ps)).filter
          (fun e => decide (categoryOf (accurate_users T ps) e = Category.both))).length := by
      rw [computeResult]
      simp only []
      rw [(hsh _).length_eq, runAgg_both]
    rw [hpibc, hcount]
    apply two_mul_length_le_sum
    intro e he
    rcases List.mem_filter.mp he with ⟨-, hcat⟩
    have hboth := (categoryOf_eq_both (accurate_users T ps) e).mp (of_decide_eq_true hcat)
    rw [totalFor]
    omega

/-- C7 witness: the identity permutation on the input `[uA, uB, uO]`. -/
theorem claim_c7_witness :
    2 * (computeResult 0 [uA, uB, uO] id).both.count ≤
      (computeResult 0 [uA, uB, uO] id).total_profiles_in_this_category :=
  (claim_c7 0 [uA, uB, uO] id (fun l => List.Perm.refl l)).2

/-- C8: under any permutation outcome of the shuffle, each bucket's sample
has at most 10 emails and every sampled email belongs to that bucket's
full email list. -/
theorem claim_c8 (T : Int) (ps : List Profile) (sh : List String → List String)
    (hsh : ∀ l, (sh l).Perm l) :
    ((computeResult T ps sh).only_7s1.sample.length ≤ 10 ∧
      ∀ e ∈ (computeResult T ps sh).only_7s1.sample,
        e ∈ (runAgg (accurate_users T ps)).only_7s1) ∧
    ((computeResult T ps sh).only_7s2.sample.length ≤ 10 ∧
      ∀ e ∈ (computeResult T ps sh).only_7s2.sample,
        e ∈ (runAgg (accurate_users T ps)).only_7s2) ∧
    ((computeResult T ps sh).both.sample.length ≤ 10 ∧
      ∀ e ∈ (computeResult T ps sh).both.sample,
        e ∈ (runAgg (accurate_users T ps)).both) := by
  rw [computeResult]
  simp only []
  refine ⟨⟨?_, ?_⟩, ⟨?_, ?_⟩, ⟨?_, ?_⟩⟩
  · simp
  · intro e he
    exact (hsh _).subset (List.take_subset 10 _ he)
  · simp
  · intro e he
    exact (hsh _).subset (List.take_subset 10 _ he)
  · simp
  · intro e he
    exact (hsh _).subset (List.take_subset 10 _ he)

/-- C8 witness: the identity permutation on the input `[uA, uB, uO]`; the
only-7S1 sample is bounded and contained in the bucket list. -/
theorem claim_c8_witness :
    (computeResult 0 [uA, uB, uO] id).only_7s1.sample.length ≤ 10 ∧
      ∀ e ∈ (computeResult 0 [uA, uB, uO] id).only_7s1.sample,
        e ∈ (runAgg (accurate_users 0 [uA, uB, uO])).only_7s1 :=
  (claim_c8 0 [uA, uB, uO] id (fun l => List.Perm.refl l)).1
